import Mathlib

/-!
# BeichtBot core — shallow embedding

A shallow embedding of the BeichtBot per-guild configuration store and
content-moderation pipeline (`src/beichtbot/config.py`, `src/beichtbot/bot.py`).

Text is modelled as `List Char` (Python `str`).  Python dicts are modelled as
association lists with Python's update semantics (existing key keeps its
position, new keys are appended).  Python sets of strings are modelled as
lists; `to_dict` serialises them sorted, exactly as the source does.
The monotonic clock (`time.monotonic`) is modelled as a rational number
passed explicitly.  Character-level approximations: `str.lower` is modelled
ASCII-wise, and regex character classes are modelled over their literal
(ASCII) members, which the source patterns consist of.
-/

namespace BeichtBot

/-- Python string, modelled as a list of characters. -/
abbrev Str := List Char

/-- The zero width space U+200B inserted by `neutralize_mentions`. -/
def zwsp : Char := Char.ofNat 0x200B

/-- Characters stripped by Python `str.strip()` (Unicode whitespace). -/
def isPySpace (c : Char) : Bool :=
  c.toNat ∈ [0x09, 0x0A, 0x0B, 0x0C, 0x0D, 0x1C, 0x1D, 0x1E, 0x1F, 0x20,
    0x85, 0xA0, 0x1680, 0x2000, 0x2001, 0x2002, 0x2003, 0x2004, 0x2005,
    0x2006, 0x2007, 0x2008, 0x2009, 0x200A, 0x2028, 0x2029, 0x202F,
    0x205F, 0x3000]

/-- `str.strip()`: drop leading and trailing whitespace. -/
def pyStrip (s : Str) : Str :=
  (s.dropWhile isPySpace).reverse.dropWhile isPySpace |>.reverse

/-- `str.lower()` (modelled on the ASCII range). -/
def pyLower (s : Str) : Str := s.map Char.toLower

/-- `a.startswith(b)` / regex literal prefix match. -/
def startsW : Str → Str → Bool
  | [], _ => true
  | _ :: _, [] => false
  | p :: ps, c :: cs => p = c && startsW ps cs

/-- `a.endswith(b)`. -/
def endsW (suffix s : Str) : Bool := startsW suffix.reverse s.reverse

/-- Python `needle in haystack` substring containment. -/
def isSubstr (needle : Str) : Str → Bool
  | [] => startsW needle []
  | c :: rest => startsW needle (c :: rest) || isSubstr needle rest

/-- `config.neutralize_mentions`: insert a zero width space after each `@`
(Python `text.replace("@", "@​")`). -/
def neutralize_mentions : Str → Str
  | [] => []
  | c :: rest =>
    if c = '@' then '@' :: zwsp :: neutralize_mentions rest
    else c :: neutralize_mentions rest

/-- `BeichtBot._spoiler_content`: strip; leave empty text alone; leave
already-wrapped text alone; otherwise wrap in `||`...`||`. -/
def spoiler_content (content : Str) : Str :=
  let content := pyStrip content
  if content = [] then content
  else if startsW ("||").toList content && endsW ("||").toList content then content
  else ("||").toList ++ content ++ ("||").toList

/-! ## Regex search embeddings

The source patterns (bot.py lines 26-29):
`MENTION_PATTERN  = @(?:everyone|here|&|!|#)`
`URL_PATTERN      = https?://`
`EMAIL_PATTERN    = [A-Z0-9._%+-]+@[A-Z0-9.-]+\.[A-Z]{2,}` (ignorecase)
`PHONE_PATTERN    = \b(?:\+\d{1,3}\s?)?(?:\(\d{2,4}\)\s?)?\d{3,4}[-\s]?\d{3,4}\b`
Each is embedded as a decidable "a match exists somewhere" scanner, which is
what `re.search` truthiness observes. -/

/-- `MENTION_PATTERN.search` as a boolean scanner. -/
def mentionSearch : Str → Bool
  | [] => false
  | c :: rest =>
    (c = '@' && (startsW ("everyone").toList rest || startsW ("here").toList rest ||
      (match rest with
        | d :: _ => d = '&' || d = '!' || d = '#'
        | [] => false))) || mentionSearch rest

/-- `URL_PATTERN.search`: the text contains `http://` or `https://`. -/
def urlSearch (s : Str) : Bool :=
  isSubstr ("http://").toList s || isSubstr ("https://").toList s

/-- Characters of `[A-Z0-9._%+-]` under `re.IGNORECASE`. -/
def isLocalChar (c : Char) : Bool :=
  c.isAlpha || c.isDigit || c = '.' || c = '_' || c = '%' || c = '+' || c = '-'

/-- Characters of `[A-Z0-9.-]` under `re.IGNORECASE`. -/
def isDomainChar (c : Char) : Bool :=
  c.isAlpha || c.isDigit || c = '.' || c = '-'

/-- After `@` and at least one domain character: does a `\.[A-Z]{2,}` tail
follow a (possibly empty) further run of domain characters? -/
def domTail : Str → Bool
  | [] => false
  | c :: rest =>
    (c = '.' && (match rest with
      | a :: b :: _ => a.isAlpha && b.isAlpha
      | _ => false)) || (isDomainChar c && domTail rest)

/-- Match of the email pattern's tail right after the `@`. -/
def emailAfterAt : Str → Bool
  | [] => false
  | c :: rest => isDomainChar c && domTail rest

/-- `EMAIL_PATTERN.search`: some position has a local-part character,
then `@`, then a valid domain tail. -/
def emailSearch : Str → Bool
  | c1 :: c2 :: rest =>
    (isLocalChar c1 && c2 = '@' && emailAfterAt rest) || emailSearch (c2 :: rest)
  | _ => false

/-- Regex `\w` word characters (ASCII model). -/
def isWordChar (c : Char) : Bool := c.isAlpha || c.isDigit || c = '_'

/-- Regex `\s` characters. -/
def isRegexSpace (c : Char) : Bool := isPySpace c

/-- Remainders after consuming exactly `k` digit characters. -/
def dropDigits : Nat → Str → Option Str
  | 0, t => some t
  | _ + 1, [] => none
  | k + 1, c :: rest => if c.isDigit then dropDigits k rest else none

/-- Remainders after consuming between `min` and `max` digits. -/
def digitOpts (min max : Nat) (t : Str) : List Str :=
  ((List.range (max + 1)).filter (fun k => min ≤ k)).filterMap (dropDigits · t)

/-- Remainders after the optional `\s?`. -/
def optWs (t : Str) : List Str :=
  t :: (match t with
    | c :: rest => if isRegexSpace c then [rest] else []
    | [] => [])

/-- Remainders after the optional separator `[-\s]?`. -/
def optSep (t : Str) : List Str :=
  t :: (match t with
    | c :: rest => if c = '-' || isRegexSpace c then [rest] else []
    | [] => [])

/-- Trailing `\b` right after a digit: end of text or a non-word character. -/
def endBoundary : Str → Bool
  | [] => true
  | c :: _ => !isWordChar c

/-- The mandatory core `\d{3,4}[-\s]?\d{3,4}\b` of the phone pattern. -/
def phoneCore (t : Str) : Bool :=
  (digitOpts 3 4 t).any fun r1 =>
    (optSep r1).any fun r2 =>
      (digitOpts 3 4 r2).any endBoundary

/-- Remainders after the group `(?:\(\d{2,4}\)\s?)` when taken. -/
def groupParen (t : Str) : List Str :=
  match t with
  | '(' :: rest =>
    (digitOpts 2 4 rest).filterMap (fun r =>
      match r with
      | ')' :: r2 => some r2
      | _ => none) |>.flatMap optWs
  | _ => []

/-- Phone core preceded by the optional parenthesised group. -/
def phoneAfterPlus (t : Str) : Bool :=
  phoneCore t || (groupParen t).any phoneCore

/-- Leading `\b` between the previous character and the first matched one. -/
def atBoundary (prev : Option Char) (first : Char) : Bool :=
  match prev with
  | none => isWordChar first
  | some p => isWordChar p != isWordChar first

/-- Match of the whole phone pattern starting exactly here. -/
def phoneMatchAt (prev : Option Char) (t : Str) : Bool :=
  match t with
  | [] => false
  | c :: rest =>
    (c = '+' && atBoundary prev '+' &&
      ((digitOpts 1 3 rest).flatMap optWs).any phoneAfterPlus) ||
    (c = '(' && atBoundary prev '(' && (groupParen t).any phoneCore) ||
    (c.isDigit && atBoundary prev c && phoneCore t)

/-- `PHONE_PATTERN.search` as a boolean scanner over all start positions. -/
def phoneSearchAux (prev : Option Char) : Str → Bool
  | [] => false
  | c :: rest => phoneMatchAt prev (c :: rest) || phoneSearchAux (some c) rest

/-- `PHONE_PATTERN.search` truthiness. -/
def phoneSearch (s : Str) : Bool := phoneSearchAux none s

/-- `BeichtBot._check_pii`: email or phone pattern found. -/
def check_pii (text : Str) : Bool := emailSearch text || phoneSearch text

/-- `CRISIS_KEYWORDS` from bot.py. -/
def CRISIS_KEYWORDS : List Str :=
  [("selbstmord").toList, ("suizid").toList, ("notfall").toList,
   ("ich halte es nicht mehr aus").toList,
   ("ich will nicht mehr leben").toList, ("suicide").toList]

/-- `BeichtBot._check_crisis`: some crisis keyword occurs in the lowered text. -/
def check_crisis (text : Str) : Bool :=
  CRISIS_KEYWORDS.any fun keyword => isSubstr keyword (pyLower text)

/-! ## Python dicts as association lists -/

/-- `d.get(k)`. -/
def dictGet? [DecidableEq α] : List (α × β) → α → Option β
  | [], _ => none
  | (k', v) :: rest, k => if k' = k then some v else dictGet? rest k

/-- `d.get(k, dflt)`. -/
def dictGetD [DecidableEq α] (l : List (α × β)) (k : α) (dflt : β) : β :=
  (dictGet? l k).getD dflt

/-- `d[k] = v`: replace in place if present, else append. -/
def dictInsert [DecidableEq α] : List (α × β) → α → β → List (α × β)
  | [], k, v => [(k, v)]
  | (k', v') :: rest, k, v =>
    if k' = k then (k, v) :: rest else (k', v') :: dictInsert rest k v

/-- `del d[k]`: a Python dict holds each key at most once, so deletion is
modelled as dropping every pair with that key. -/
def dictRemove [DecidableEq α] (l : List (α × β)) (k : α) : List (α × β) :=
  l.filter fun p => decide (p.1 ≠ k)

/-! ## Guild configuration (`config.GuildConfig`) -/

/-- The `GuildConfig` dataclass with its field defaults.  Python sets are
modelled as lists (iteration order made explicit), dicts as association
lists. -/
structure GuildConfig where
  guild_id : Nat
  target_channel_id : Option Nat := none
  mod_channel_id : Option Nat := none
  allowed_target_channels : List Nat := []
  cooldown_seconds : Nat := 120
  auto_delete_minutes : Option Nat := none
  allow_ai_moderation : Bool := false
  default_thread_lock : Bool := true
  banner_text : Option Str := none
  blacklist : List Str := []
  whitelist : List Str := []
  stats : List (Str × Int) :=
    [(("confessions").toList, 0), (("responses").toList, 0),
     (("reports").toList, 0), (("ai_flags").toList, 0)]
  hashed_posts : List (Nat × Str) := []
  pii_flags : List Nat := []
  crisis_flags : List Nat := []
deriving DecidableEq, Repr

/-- Lexicographic string comparison (Python `sorted` on `str`). -/
def lexLt : Str → Str → Bool
  | [], [] => false
  | [], _ :: _ => true
  | _ :: _, [] => false
  | a :: as, b :: bs => decide (a < b) || (a = b && lexLt as bs)

/-- Sorted insertion. -/
def insSorted (x : Str) : List Str → List Str
  | [] => [x]
  | y :: ys => if lexLt x y then x :: y :: ys else y :: insSorted x ys

/-- `sorted(xs)` by insertion sort. -/
def sortStr (xs : List Str) : List Str := xs.foldr insSorted []

/-- `sorted(s)` for a set `s` modelled as a list: sort after deduplication. -/
def sortedDedupStr (xs : List Str) : List Str := sortStr xs.dedup

/-- `GuildConfig.to_dict`: the sets `blacklist`/`whitelist` are serialised
sorted, `allowed_target_channels` as a (duplicate-free) list. -/
def GuildConfig.to_dict (c : GuildConfig) : GuildConfig :=
  { c with allowed_target_channels := c.allowed_target_channels.dedup,
           blacklist := sortedDedupStr c.blacklist,
           whitelist := sortedDedupStr c.whitelist }

/-- `GuildConfig.from_dict` on an in-memory `to_dict` document (every field
present; `set(...)` is re-applied to the list fields). -/
def GuildConfig.from_dict (d : GuildConfig) : GuildConfig :=
  { d with allowed_target_channels := d.allowed_target_channels.dedup,
           blacklist := d.blacklist.dedup,
           whitelist := d.whitelist.dedup }

/-! ## The persistent store (`config.ConfigStore`)

`_save` writes `_data` to disk; the model state is exactly `_data`, so a
save is the identity and every operation below returns the state it
persisted.  Guild keys are `str(guild_id)` in the source; decimal
formatting of distinct ids is injective, so keys are modelled as `Nat`. -/

/-- `ConfigStore._data` (defaults mirror `_default_data`). -/
structure ConfigStore where
  version : Nat := 1
  guilds : List (Nat × GuildConfig) := []
  hash_secret : Option Str := none
deriving DecidableEq, Repr

/-- `ConfigStore.set_guild_config`. -/
def set_guild_config (s : ConfigStore) (config : GuildConfig) : ConfigStore :=
  { s with guilds := dictInsert s.guilds config.guild_id config.to_dict }

/-- `ConfigStore.get_guild_config`: creates-and-persists a default when the
guild has no entry. -/
def get_guild_config (s : ConfigStore) (guild_id : Nat) : GuildConfig × ConfigStore :=
  match dictGet? s.guilds guild_id with
  | none =>
    let cfg : GuildConfig := { guild_id := guild_id }
    (cfg, set_guild_config s cfg)
  | some raw => (GuildConfig.from_dict raw, s)

/-- The mutation `record_hash` applies to the fetched config. -/
def recordHashFn (message_id : Nat) (hash_id : Str) (cfg : GuildConfig) : GuildConfig :=
  { cfg with hashed_posts := dictInsert cfg.hashed_posts message_id hash_id }

/-- `ConfigStore.record_hash`. -/
def record_hash (s : ConfigStore) (guild_id message_id : Nat) (hash_id : Str) : ConfigStore :=
  let cs := get_guild_config s guild_id
  set_guild_config cs.2 (recordHashFn message_id hash_id cs.1)

/-- `ConfigStore.get_hash`. -/
def get_hash (s : ConfigStore) (guild_id message_id : Nat) : Option Str × ConfigStore :=
  let cs := get_guild_config s guild_id
  (dictGet? cs.1.hashed_posts message_id, cs.2)

/-- The mutation `increment_stat` applies to the fetched config. -/
def incrementStatFn (key : Str) (amount : Int) (cfg : GuildConfig) : GuildConfig :=
  { cfg with stats := dictInsert cfg.stats key (dictGetD cfg.stats key 0 + amount) }

/-- `ConfigStore.increment_stat`. -/
def increment_stat (s : ConfigStore) (guild_id : Nat) (key : Str) (amount : Int) : ConfigStore :=
  let cs := get_guild_config s guild_id
  set_guild_config cs.2 (incrementStatFn key amount cs.1)

/-- The mutation `set_banner` applies to the fetched config. -/
def setBannerFn (text : Option Str) (cfg : GuildConfig) : GuildConfig :=
  { cfg with banner_text := text }

/-- `ConfigStore.set_banner`. -/
def set_banner (s : ConfigStore) (guild_id : Nat) (text : Option Str) : ConfigStore :=
  let cs := get_guild_config s guild_id
  set_guild_config cs.2 (setBannerFn text cs.1)

/-- The mutation `set_lists` applies to the fetched config: provided lists
are lower-cased and stored as sets. -/
def setListsFn (blacklist whitelist : Option (List Str)) (cfg : GuildConfig) : GuildConfig :=
  let cfg := match blacklist with
    | some bl => { cfg with blacklist := (bl.map pyLower).dedup }
    | none => cfg
  match whitelist with
  | some wl => { cfg with whitelist := (wl.map pyLower).dedup }
  | none => cfg

/-- `ConfigStore.set_lists`. -/
def set_lists (s : ConfigStore) (guild_id : Nat)
    (blacklist whitelist : Option (List Str)) : GuildConfig × ConfigStore :=
  let cs := get_guild_config s guild_id
  (setListsFn blacklist whitelist cs.1,
   set_guild_config cs.2 (setListsFn blacklist whitelist cs.1))

/-- The mutation `update_allowed_channels` applies to the fetched config. -/
def updateChannelsFn (channels : List Nat) (cfg : GuildConfig) : GuildConfig :=
  { cfg with allowed_target_channels := channels.dedup }

/-- `ConfigStore.update_allowed_channels`. -/
def update_allowed_channels (s : ConfigStore) (guild_id : Nat) (channels : List Nat) :
    GuildConfig × ConfigStore :=
  let cs := get_guild_config s guild_id
  (updateChannelsFn channels cs.1, set_guild_config cs.2 (updateChannelsFn channels cs.1))

/-- The mutation `record_flag` applies to the fetched config. -/
def recordFlagFn (message_id : Nat) (crisis pii : Bool) (cfg : GuildConfig) : GuildConfig :=
  let cfg := if crisis then
      { cfg with crisis_flags := cfg.crisis_flags ++ [message_id],
                 stats := dictInsert cfg.stats ("ai_flags").toList
                   (dictGetD cfg.stats ("ai_flags").toList 0 + 1) }
    else cfg
  if pii then { cfg with pii_flags := cfg.pii_flags ++ [message_id] } else cfg

/-- `ConfigStore.record_flag`. -/
def record_flag (s : ConfigStore) (guild_id message_id : Nat) (crisis pii : Bool) : ConfigStore :=
  let cs := get_guild_config s guild_id
  set_guild_config cs.2 (recordFlagFn message_id crisis pii cs.1)

/-- `ConfigStore.reset_guild`: delete the entry if present, else no-op. -/
def reset_guild (s : ConfigStore) (guild_id : Nat) : ConfigStore :=
  if (dictGet? s.guilds guild_id).isSome then
    { s with guilds := dictRemove s.guilds guild_id }
  else s

/-- `ConfigStore.list_guilds`. -/
def list_guilds (s : ConfigStore) : List Nat := s.guilds.map Prod.fst

/-- The `ConfigStore.secret` property; `fresh` models `secrets.token_hex(32)`
(Python falsiness covers both a missing and an empty stored secret). -/
def storeSecret (s : ConfigStore) (fresh : Str) : Str × ConfigStore :=
  match s.hash_secret with
  | some sec =>
    if sec = [] then (fresh, { s with hash_secret := some fresh })
    else (sec, s)
  | none => (fresh, { s with hash_secret := some fresh })

/-! ## Store initialisation (`ConfigStore.__init__` / `_load`) -/

/-- Parsed shape of the persisted JSON document; every top-level field may
be absent. -/
structure RawDoc where
  version : Option Nat := none
  guilds : Option (List (Nat × GuildConfig)) := none
  hash_secret : Option (Option Str) := none
deriving DecidableEq

/-- `ConfigStore.__init__`/`_load`.  `file = none` models a missing state
file (first run); `some (.error e)` a file whose `json.load` raises (the
exception propagates out of the constructor); `some (.ok doc)` a parsed
document, whose absent fields are defaulted.  `fresh` models
`secrets.token_hex(32)`. -/
def initStore (file : Option (Except Str RawDoc)) (fresh : Str) : Except Str ConfigStore :=
  match file with
  | none => .ok {}
  | some (.error e) => .error e
  | some (.ok doc) =>
    let s : ConfigStore :=
      { version := doc.version.getD 1,
        guilds := doc.guilds.getD [],
        hash_secret := doc.hash_secret.getD none }
    match s.hash_secret with
    | none => .ok { s with hash_secret := some fresh }
    | some sec =>
      if sec = [] then .ok { s with hash_secret := some fresh } else .ok s

/-! ## Word-list filter (`BeichtBot._check_word_lists`) -/

/-- The blacklist rejection message, naming the offending term. -/
def blockedMsg (blocked : Str) : Str :=
  ("Der Begriff `").toList ++ blocked ++ ("` ist in diesem Server blockiert.").toList

/-- The whitelist rejection message. -/
def whitelistMsg : Str :=
  ("Dein Text enthält keines der notwendigen Schlüsselwörter.").toList

/-- `BeichtBot._check_word_lists`: the first truthy blacklist entry occurring
in the lowered text rejects; otherwise a non-empty whitelist with no hit
rejects; otherwise the text passes (`none`). -/
def check_word_lists (config : GuildConfig) (text : Str) : Option Str :=
  let lowered := pyLower text
  match config.blacklist.find? (fun blocked => !blocked.isEmpty && isSubstr blocked lowered) with
  | some blocked => some (blockedMsg blocked)
  | none =>
    if config.whitelist.isEmpty then none
    else if config.whitelist.any (fun word => isSubstr word lowered) then none
    else some whitelistMsg

/-! ## Rate limiter (`BeichtBot._is_on_cooldown` and the `/beichten` gate) -/

/-- The in-memory `self.cooldowns : (guild_id, user_id) -> expiry`. -/
abbrev CooldownMap := List ((Nat × Nat) × ℚ)

/-- `BeichtBot._is_on_cooldown` (the monotonic clock reading is the
explicit `now`; an accepted attempt books `now + cooldown`, a rejected
one leaves the map untouched). -/
def is_on_cooldown (cooldowns : CooldownMap) (guild_id user_id : Nat)
    (cooldown : Nat) (now : ℚ) : Bool × CooldownMap :=
  let expiry := dictGetD cooldowns (guild_id, user_id) 0
  if now < expiry then (true, cooldowns)
  else (false, dictInsert cooldowns (guild_id, user_id) (now + cooldown))

/-- The admission gate of `/beichten` (bot.py lines 259-263): the cooldown
check runs only when `cooldown_seconds > 0`; `true` means the attempt is
admitted (the modal opens). -/
def beichtenGate (config : GuildConfig) (cooldowns : CooldownMap)
    (guild_id user_id : Nat) (now : ℚ) : Bool × CooldownMap :=
  if config.cooldown_seconds > 0 then
    let r := is_on_cooldown cooldowns guild_id user_id config.cooldown_seconds now
    (!r.1, r.2)
  else (true, cooldowns)

/-! ## HMAC-SHA256 (`BeichtBot._create_hash`)

`hmac.new(secret.encode("utf-8"), f"{user_id}:{message_id}".encode("utf-8"),
"sha256").hexdigest()`, embedded executably: bytes are `Nat < 256`,
32-bit words are `Nat` reduced mod `2^32`. -/

/-- Truncate to a 32-bit word. -/
def w32 (n : Nat) : Nat := n % 4294967296

/-- 32-bit modular addition. -/
def wadd (a b : Nat) : Nat := (a + b) % 4294967296

/-- 32-bit complement. -/
def wnot (a : Nat) : Nat := Nat.xor a 4294967295

/-- Rotate a 32-bit word right by `k`. -/
def rotr (k n : Nat) : Nat := w32 (Nat.lor (n >>> k) (n <<< (32 - k)))

/-- SHA-256 Σ₀. -/
def bsig0 (x : Nat) : Nat := Nat.xor (rotr 2 x) (Nat.xor (rotr 13 x) (rotr 22 x))

/-- SHA-256 Σ₁. -/
def bsig1 (x : Nat) : Nat := Nat.xor (rotr 6 x) (Nat.xor (rotr 11 x) (rotr 25 x))

/-- SHA-256 σ₀. -/
def ssig0 (x : Nat) : Nat := Nat.xor (rotr 7 x) (Nat.xor (rotr 18 x) (x >>> 3))

/-- SHA-256 σ₁. -/
def ssig1 (x : Nat) : Nat := Nat.xor (rotr 17 x) (Nat.xor (rotr 19 x) (x >>> 10))

/-- SHA-256 Ch. -/
def chf (x y z : Nat) : Nat := Nat.xor (Nat.land x y) (Nat.land (wnot x) z)

/-- SHA-256 Maj. -/
def majf (x y z : Nat) : Nat :=
  Nat.xor (Nat.land x y) (Nat.xor (Nat.land x z) (Nat.land y z))

/-- The 64 SHA-256 round constants (FIPS 180-4, written in decimal). -/
def K256 : List Nat :=
  [1116352408, 1899447441, 3049323471, 3921009573, 961987163, 1508970993,
   2453635748, 2870763221, 3624381080, 310598401, 607225278, 1426881987,
   1925078388, 2162078206, 2614888103, 3248222580, 3835390401, 4022224774,
   264347078, 604807628, 770255983, 1249150122, 1555081692, 1996064986,
   2554220882, 2821834349, 2952996808, 3210313671, 3336571891, 3584528711,
   113926993, 338241895, 666307205, 773529912, 1294757372, 1396182291,
   1695183700, 1986661051, 2177026350, 2456956037, 2730485921, 2820302411,
   3259730800, 3345764771, 3516065817, 3600352804, 4094571909, 275423344,
   430227734, 506948616, 659060556, 883997877, 958139571, 1322822218,
   1537002063, 1747873779, 1955562222, 2024104815, 2227730452, 2361852424,
   2428436474, 2756734187, 3204031479, 3329325298]

/-- The SHA-256 initial hash value (FIPS 180-4, written in decimal). -/
def H256 : List Nat :=
  [1779033703, 3144134277, 1013904242, 2773480762,
   1359893119, 2600822924, 528734635, 1541459225]

/-- List indexing defaulting to 0. -/
def nth (l : List Nat) (i : Nat) : Nat := l.getD i 0

/-- Extend the 16 message-schedule words by `n` more. -/
def schedExtend : Nat → List Nat → List Nat
  | 0, w => w
  | n + 1, w =>
    let i := w.length
    schedExtend n (w ++
      [wadd (wadd (ssig1 (nth w (i - 2))) (nth w (i - 7)))
        (wadd (ssig0 (nth w (i - 15))) (nth w (i - 16)))])

/-- Run the compression rounds over paired `(k, w)` values. -/
def compressRounds : List (Nat × Nat) → List Nat → List Nat
  | [], st => st
  | (k, w) :: rest, st =>
    let a := nth st 0
    let b := nth st 1
    let c := nth st 2
    let d := nth st 3
    let e := nth st 4
    let f := nth st 5
    let g := nth st 6
    let h := nth st 7
    let t1 := wadd h (wadd (bsig1 e) (wadd (chf e f g) (wadd k w)))
    let t2 := wadd (bsig0 a) (majf a b c)
    compressRounds rest [wadd t1 t2, a, b, c, wadd d t1, e, f, g]

/-- Split a byte string into 64-byte blocks (structural recursion on a fuel
bound so that the kernel can evaluate it). -/
def chunk64Aux : Nat → List Nat → List (List Nat)
  | 0, _ => []
  | _, [] => []
  | fuel + 1, b :: bs => (b :: bs).take 64 :: chunk64Aux fuel (bs.drop 63)

/-- Split a byte string into 64-byte blocks. -/
def chunk64 (l : List Nat) : List (List Nat) := chunk64Aux l.length l

/-- Big-endian 32-bit words from bytes. -/
def bytesToWords : List Nat → List Nat
  | b0 :: b1 :: b2 :: b3 :: rest =>
    (((b0 * 256 + b1) * 256 + b2) * 256 + b3) :: bytesToWords rest
  | _ => []

/-- 8-byte big-endian encoding of the bit length. -/
def lenBytes (n : Nat) : List Nat :=
  [n / 2 ^ 56 % 256, n / 2 ^ 48 % 256, n / 2 ^ 40 % 256, n / 2 ^ 32 % 256,
   n / 2 ^ 24 % 256, n / 2 ^ 16 % 256, n / 2 ^ 8 % 256, n % 256]

/-- SHA-256 padding. -/
def padMessage (msg : List Nat) : List Nat :=
  msg ++ [0x80] ++ List.replicate ((55 + 64 - msg.length % 64) % 64) 0 ++
    lenBytes (8 * msg.length)

/-- SHA-256 over a byte string, as the final eight 32-bit words. -/
def sha256Words (msg : List Nat) : List Nat :=
  (chunk64 (padMessage msg)).foldl
    (fun h block =>
      let w := schedExtend 48 (bytesToWords block)
      let st := compressRounds (K256.zip w) h
      (List.range 8).map fun i => wadd (nth h i) (nth st i))
    H256

/-- Big-endian bytes of a 32-bit word. -/
def wordBytes (w : Nat) : List Nat :=
  [w / 2 ^ 24 % 256, w / 2 ^ 16 % 256, w / 2 ^ 8 % 256, w % 256]

/-- SHA-256 digest bytes. -/
def sha256Bytes (msg : List Nat) : List Nat := (sha256Words msg).flatMap wordBytes

/-- Lowercase hex character. -/
def hexDigitChar (n : Nat) : Char := ("0123456789abcdef").toList.getD n '0'

/-- `hexdigest()` of a byte string. -/
def hexDigest (bytes : List Nat) : Str :=
  bytes.flatMap fun b => [hexDigitChar (b / 16), hexDigitChar (b % 16)]

/-- HMAC-SHA256 digest bytes (block size 64). -/
def hmacSha256 (key msg : List Nat) : List Nat :=
  let k0 := if key.length > 64 then sha256Bytes key else key
  let k0 := k0 ++ List.replicate (64 - k0.length) 0
  sha256Bytes ((k0.map (Nat.xor · 0x5c)) ++
    sha256Bytes ((k0.map (Nat.xor · 0x36)) ++ msg))

/-- UTF-8 encoding of one character. -/
def utf8Char (c : Char) : List Nat :=
  let n := c.toNat
  if n < 0x80 then [n]
  else if n < 0x800 then [0xC0 + n / 64, 0x80 + n % 64]
  else if n < 0x10000 then [0xE0 + n / 4096, 0x80 + n / 64 % 64, 0x80 + n % 64]
  else [0xF0 + n / 262144, 0x80 + n / 4096 % 64, 0x80 + n / 64 % 64, 0x80 + n % 64]

/-- `s.encode("utf-8")`. -/
def utf8 (s : Str) : List Nat := s.flatMap utf8Char

/-- Decimal digit character. -/
def digitChar : Nat → Char
  | 0 => '0' | 1 => '1' | 2 => '2' | 3 => '3' | 4 => '4'
  | 5 => '5' | 6 => '6' | 7 => '7' | 8 => '8' | 9 => '9'
  | _ => '0'

/-- Decimal formatting, structurally recursive on a fuel bound. -/
def natDecAux : Nat → Nat → Str
  | 0, _ => []
  | fuel + 1, n =>
    if n < 10 then [digitChar n]
    else natDecAux fuel (n / 10) ++ [digitChar (n % 10)]

/-- Decimal formatting of a natural number (Python `f"{n}"`). -/
def natDec (n : Nat) : Str := natDecAux (n + 1) n

/-- The exact byte-level message `f"{user_id}:{message_id}"` fed to the HMAC. -/
def hmacMessage (user_id message_id : Nat) : Str :=
  natDec user_id ++ ':' :: natDec message_id

/-- `BeichtBot._create_hash`: keyed one-way trace token. -/
def create_hash (secret : Str) (user_id message_id : Nat) : Str :=
  hexDigest (hmacSha256 (utf8 secret) (utf8 (hmacMessage user_id message_id)))

/-! ## The confession pipeline (`BeichtBot.handle_confession_submission`) -/

/-- The platform adapter's view of a guild: its id and the ids of its text
channels (`guild.get_channel` succeeds with a `TextChannel` exactly on
these). -/
structure GuildEnv where
  id : Nat
  textChannels : List Nat
deriving DecidableEq, Repr

/-- `BeichtBot._parse_bool`. -/
def parse_bool (value : Str) (dflt : Option Bool) : Option Bool :=
  if value = [] then dflt
  else
    let v := pyLower (pyStrip value)
    if v ∈ [("ja").toList, ("true").toList, ("1").toList, ("on").toList, ("yes").toList] then
      some true
    else if v ∈ [("nein").toList, ("false").toList, ("0").toList, ("off").toList, ("no").toList] then
      some false
    else dflt

/-- Decimal value of a digit string. -/
def decValue (l : Str) : Nat := l.foldl (fun a c => 10 * a + (c.toNat - 48)) 0

/-- Python `int(str)` (as used on the modal's channel-id field): optional
sign, decimal digits, surrounding whitespace allowed; `none` models a
`ValueError`. -/
def parseInt (s : Str) : Option Int :=
  let t := pyStrip s
  let sd : Int × Str :=
    match t with
    | '+' :: rest => (1, rest)
    | '-' :: rest => (-1, rest)
    | rest => (1, rest)
  if !sd.2.isEmpty && sd.2.all Char.isDigit then some (sd.1 * decValue sd.2)
  else none

/-- `BeichtBot._resolve_target_channel`. -/
def resolve_target_channel (guild : GuildEnv) (config : GuildConfig)
    (channel_id : Option Int) : Option Nat :=
  let cid? : Option Int :=
    match channel_id with
    | none => config.target_channel_id.map Int.ofNat
    | some c => some c
  match cid? with
  | none => none
  | some cid =>
    if 0 ≤ cid ∧ cid.toNat ∈ guild.textChannels then
      if config.allowed_target_channels ≠ [] ∧ cid.toNat ∉ config.allowed_target_channels then
        none
      else some cid.toNat
    else none

/-- `[w.strip() for w in value.split(",") if w.strip()] if value else []`. -/
def parseTriggers (value : Str) : List Str :=
  if value = [] then []
  else ((value.splitOn ',').map pyStrip).filter fun w => !w.isEmpty

/-- Result of `handle_confession_submission` as observed at the platform
boundary. -/
inductive Outcome where
  | rejectedWords (msg : Str)
  | invalidChannelId
  | noTarget
  | deliveryFailed
  | published (content : Str) (message_id : Nat) (mention url pii crisis : Bool)
deriving DecidableEq, Repr

/-- `BeichtBot.handle_confession_submission` (bot.py lines 266-327), with
the platform boundary explicit: `guild` is the adapter's channel view,
`deliver` the result of `target.send` (`some message_id` on success, `none`
for an `HTTPException`), and `secret` the store secret that
`self._create_hash` reads.  Returns the outcome together with the store
resulting from the recording steps. -/
def handle_confession_submission (s : ConfigStore) (secret : Str) (guild : GuildEnv)
    (user_id : Nat) (confessionField triggerField allowRepliesField lockThreadField
    targetChannelField : Str) (deliver : Option Nat) : Outcome × ConfigStore :=
  let cs := get_guild_config s guild.id
  let config := cs.1
  let s1 := cs.2
  match check_word_lists config confessionField with
  | some word_issue => (.rejectedWords word_issue, s1)
  | none =>
    let _allow_replies := parse_bool allowRepliesField (some true)
    let _lock_thread := parse_bool lockThreadField (some config.default_thread_lock)
    let channelParse : Option (Option Int) :=
      if targetChannelField = [] then some none
      else match parseInt targetChannelField with
        | some n => some (some n)
        | none => none
    match channelParse with
    | none => (.invalidChannelId, s1)
    | some channel_id =>
      match resolve_target_channel guild config channel_id with
      | none => (.noTarget, s1)
      | some _target =>
        let confession := neutralize_mentions confessionField
        let trigger_words := parseTriggers triggerField
        let message_parts : List Str :=
          (if trigger_words ≠ [] then
            [("**TW:** ").toList ++ List.intercalate (", ").toList trigger_words]
          else []) ++ [spoiler_content confession]
        let content := List.intercalate ("\n\n").toList message_parts
        let mention := mentionSearch confession
        let url := urlSearch confession
        let pii := check_pii confession
        let crisis := check_crisis confession
        match deliver with
        | none => (.deliveryFailed, s1)
        | some message_id =>
          let s2 := increment_stat s1 guild.id ("confessions").toList 1
          let hash_id := create_hash secret user_id message_id
          let s3 := record_hash s2 guild.id message_id hash_id
          let s4 := record_flag s3 guild.id message_id crisis pii
          (.published content message_id mention url pii crisis, s4)

/-! # Verification

Helper lemmas about the dict model, then one theorem per specified
property. -/

theorem dictGet?_insert_self [DecidableEq α] (l : List (α × β)) (k : α) (v : β) :
    dictGet? (dictInsert l k v) k = some v := by
  induction l with
  | nil => simp [dictInsert, dictGet?]
  | cons p t ih =>
    rcases p with ⟨k', v'⟩
    by_cases h : k' = k
    · simp [dictInsert, h, dictGet?]
    · simp [dictInsert, h, dictGet?, ih]

theorem dictGet?_insert_ne [DecidableEq α] (l : List (α × β)) (k k' : α) (v : β)
    (h : k' ≠ k) : dictGet? (dictInsert l k v) k' = dictGet? l k' := by
  have h' : ¬k = k' := fun hh => h hh.symm
  induction l with
  | nil => simp [dictInsert, dictGet?, h']
  | cons p t ih =>
    rcases p with ⟨k1, v1⟩
    by_cases h1 : k1 = k
    · subst h1
      simp [dictInsert, dictGet?, h']
    · simp [dictInsert, h1, dictGet?, ih]

theorem dictGet?_remove_self [DecidableEq α] (l : List (α × β)) (k : α) :
    dictGet? (dictRemove l k) k = none := by
  induction l with
  | nil => simp [dictRemove, dictGet?]
  | cons p t ih =>
    rcases p with ⟨k', v'⟩
    by_cases h : k' = k
    · simpa [dictRemove, List.filter_cons, h] using ih
    · simpa [dictRemove, List.filter_cons, dictGet?, h] using ih

theorem dictGet?_remove_ne [DecidableEq α] (l : List (α × β)) (k k' : α)
    (h : k' ≠ k) : dictGet? (dictRemove l k) k' = dictGet? l k' := by
  induction l with
  | nil => simp [dictRemove, dictGet?]
  | cons p t ih =>
    rcases p with ⟨k1, v1⟩
    by_cases h1 : k1 = k
    · subst h1
      have h2 : ¬k1 = k' := fun hh => h hh.symm
      simp only [dictRemove, decide_not] at ih ⊢
      simp [List.filter_cons, h2, dictGet?, ih]
    · simp only [dictRemove, decide_not] at ih ⊢
      simp [List.filter_cons, h1, dictGet?, ih]

/-! ## Lemmas about `pyStrip` -/

theorem pyStrip_eq_rdropWhile (s : Str) :
    pyStrip s = (s.dropWhile isPySpace).rdropWhile isPySpace := rfl

theorem dropWhile_pyStrip (s : Str) :
    (pyStrip s).dropWhile isPySpace = pyStrip s := by
  rcases h : pyStrip s with _ | ⟨c, t⟩
  · simp
  · have hpre : pyStrip s <+: s.dropWhile isPySpace := by
      rw [pyStrip_eq_rdropWhile]
      exact List.rdropWhile_prefix _ _
    rw [h] at hpre
    obtain ⟨r, hr⟩ := hpre
    have h0 : s.dropWhile isPySpace = c :: (t ++ r) := by
      rw [← hr]; simp
    have hne : s.dropWhile isPySpace ≠ [] := by rw [h0]; simp
    have hx := List.head_dropWhile_not isPySpace s hne
    simp only [h0, List.head_cons] at hx
    simp [List.dropWhile_cons, hx]

theorem pyStrip_idem (s : Str) : pyStrip (pyStrip s) = pyStrip s := by
  rw [pyStrip_eq_rdropWhile (pyStrip s), dropWhile_pyStrip,
    pyStrip_eq_rdropWhile s]
  exact List.rdropWhile_idempotent _ _

theorem isPySpace_pipe : isPySpace '|' = false := by decide

theorem pyStrip_pipe_ends (t : Str) :
    pyStrip ('|' :: (t ++ ['|'])) = '|' :: (t ++ ['|']) := by
  rw [pyStrip_eq_rdropWhile]
  rw [List.dropWhile_cons_of_neg (by simp [isPySpace_pipe])]
  have h2 : '|' :: (t ++ ['|']) = ('|' :: t) ++ ['|'] := by simp
  rw [h2]
  exact List.rdropWhile_concat_neg _ _ '|' (by simp [isPySpace_pipe])

/-- Unfolded form of `spoiler_content`. -/
theorem spoiler_content_def (s : Str) :
    spoiler_content s =
      if pyStrip s = [] then pyStrip s
      else if startsW ("||").toList (pyStrip s) && endsW ("||").toList (pyStrip s) then
        pyStrip s
      else ("||").toList ++ pyStrip s ++ ("||").toList := rfl

theorem startsW_pipes (t : Str) : startsW ("||").toList ('|' :: '|' :: t) = true := by
  show startsW ['|', '|'] ('|' :: '|' :: t) = true
  simp [startsW]

/-- C6 helper: the wrapped form is returned as-is by a second wrap. -/
theorem spoiler_of_wrapped (t : Str) :
    spoiler_content (("||").toList ++ t ++ ("||").toList) =
      ("||").toList ++ t ++ ("||").toList := by
  have e2 : ("||").toList ++ t ++ ("||").toList = '|' :: '|' :: (t ++ ['|', '|']) := by
    simp
  rw [e2]
  have hstrip : pyStrip ('|' :: '|' :: (t ++ ['|', '|'])) =
      '|' :: '|' :: (t ++ ['|', '|']) := by
    have e1 : '|' :: '|' :: (t ++ ['|', '|']) =
        '|' :: (('|' :: (t ++ ['|'])) ++ ['|']) := by simp
    rw [e1]; exact pyStrip_pipe_ends _
  have hstart : startsW ("||").toList ('|' :: '|' :: (t ++ ['|', '|'])) = true :=
    startsW_pipes _
  have hend : endsW ("||").toList ('|' :: '|' :: (t ++ ['|', '|'])) = true := by
    show startsW (("||").toList).reverse
      (('|' :: '|' :: (t ++ ['|', '|'])).reverse) = true
    have e3 : ('|' :: '|' :: (t ++ ['|', '|'])).reverse =
        '|' :: '|' :: (t.reverse ++ ['|', '|']) := by simp
    rw [e3]
    exact startsW_pipes _
  rw [spoiler_content_def, hstrip, if_neg (by simp), if_pos (by rw [hstart, hend]; rfl)]

/-- `C6`: the spoiler wrapper is idempotent, and text that strips to empty
is returned unwrapped (empty output). -/
theorem spoiler_content_idempotent (s : Str) :
    spoiler_content (spoiler_content s) = spoiler_content s ∧
      (pyStrip s = [] → spoiler_content s = []) := by
  constructor
  · by_cases h0 : pyStrip s = []
    · have h : spoiler_content s = [] := by
        rw [spoiler_content_def, if_pos h0]; exact h0
      rw [h]
      rfl
    · cases hw : (startsW ("||").toList (pyStrip s) && endsW ("||").toList (pyStrip s)) with
      | true =>
        have h : spoiler_content s = pyStrip s := by
          rw [spoiler_content_def, if_neg h0, if_pos hw]
        rw [h]
        rw [spoiler_content_def, pyStrip_idem, if_neg h0, if_pos hw]
      | false =>
        have h : spoiler_content s = ("||").toList ++ pyStrip s ++ ("||").toList := by
          rw [spoiler_content_def, if_neg h0, if_neg (by rw [Bool.not_eq_true]; exact hw)]
        rw [h]
        exact spoiler_of_wrapped _
  · intro h0
    rw [spoiler_content_def, if_pos h0]
    exact h0

/-- Witness for `C6` at concrete inputs. -/
theorem spoiler_content_idempotent_witness :
    spoiler_content ((" ").toList) = [] ∧
      spoiler_content (spoiler_content (("x").toList)) =
        spoiler_content (("x").toList) :=
  ⟨(spoiler_content_idempotent ((" ").toList)).2 (by decide),
   (spoiler_content_idempotent (("x").toList)).1⟩

/-! ## C4: reset round-trip -/

/-- `C4`: for every store and guild id, `get` after `reset` returns a
freshly-defaulted `GuildConfig`; `reset` deletes the guild's entry
entirely and is a no-op when the entry is absent; `get` creates and
persists a default configuration when none is stored. -/
theorem reset_get_roundtrip (s : ConfigStore) (gid : Nat) :
    (get_guild_config (reset_guild s gid) gid).1 = { guild_id := gid } ∧
      dictGet? (reset_guild s gid).guilds gid = none ∧
      (dictGet? s.guilds gid = none → reset_guild s gid = s) ∧
      (dictGet? s.guilds gid = none →
        get_guild_config s gid =
          ({ guild_id := gid }, set_guild_config s { guild_id := gid })) := by
  have hrem : dictGet? (reset_guild s gid).guilds gid = none := by
    unfold reset_guild
    by_cases h : (dictGet? s.guilds gid).isSome
    · simp [h, dictGet?_remove_self]
    · simp only [h, if_false, Bool.false_eq_true]
      cases hh : dictGet? s.guilds gid with
      | none => rfl
      | some v => rw [hh] at h; simp at h
  refine ⟨?_, hrem, ?_, ?_⟩
  · simp [get_guild_config, hrem]
  · intro h
    simp [reset_guild, h]
  · intro h
    simp [get_guild_config, h]

/-- Witness for `C4` at a concrete store. -/
theorem reset_get_roundtrip_witness :
    reset_guild ({} : ConfigStore) 7 = ({} : ConfigStore) ∧
      get_guild_config ({} : ConfigStore) 7 =
        ({ guild_id := 7 }, set_guild_config ({} : ConfigStore) { guild_id := 7 }) :=
  ⟨(reset_get_roundtrip ({} : ConfigStore) 7).2.2.1 rfl,
   (reset_get_roundtrip ({} : ConfigStore) 7).2.2.2 rfl⟩

/-! ## C9: store initialisation -/

/-- `C9`: a missing persisted document is not an error — the defaulted
in-memory state is materialised for a first run — while a malformed
document is a fatal initialisation error propagating out of the
constructor. -/
theorem initStore_missing_ok_malformed_fatal :
    (∀ fresh : Str, initStore none fresh = .ok ({} : ConfigStore)) ∧
      ∀ e fresh : Str, initStore (some (.error e)) fresh = .error e :=
  ⟨fun _ => rfl, fun _ _ => rfl⟩

/-! ## C2 and C10: the word-list filter -/

/-- A configuration whose blacklist holds only the empty string. -/
def cfgEmptyTerm : GuildConfig := { guild_id := 1, blacklist := [[]] }

/-- `C2` counterexample: the claim quantifies over every configuration, but
with blacklist `{""}` the configured empty term occurs in `"hello"` (the
empty string is a substring of every text) and the filter nevertheless
accepts. -/
theorem blacklist_empty_term_counterexample :
    ([] : Str) ∈ cfgEmptyTerm.blacklist ∧
      isSubstr [] (pyLower ("hello").toList) = true ∧
      check_word_lists cfgEmptyTerm ("hello").toList = none := by
  refine ⟨by simp [cfgEmptyTerm], by decide, ?_⟩
  rfl

/-- `C2` (amended: a blacklist term must be non-empty to reject —
empty-string entries are skipped): any non-empty configured blacklist term
occurring in the lowered text rejects regardless of the whitelist, with
the message naming an offending term; if no non-empty blacklist term
occurs and the whitelist is non-empty and unmatched, the text is
rejected; with both lists empty every text passes. -/
theorem check_word_lists_contract :
    (∀ (config : GuildConfig) (text b : Str), b ∈ config.blacklist → b ≠ [] →
      isSubstr b (pyLower text) = true →
      ∃ b', b' ∈ config.blacklist ∧ b' ≠ [] ∧ isSubstr b' (pyLower text) = true ∧
        check_word_lists config text = some (blockedMsg b')) ∧
    (∀ (config : GuildConfig) (text : Str),
      (∀ b ∈ config.blacklist, b = [] ∨ isSubstr b (pyLower text) = false) →
      config.whitelist ≠ [] →
      (∀ w ∈ config.whitelist, isSubstr w (pyLower text) = false) →
      check_word_lists config text = some whitelistMsg) ∧
    (∀ (config : GuildConfig) (text : Str), config.blacklist = [] →
      config.whitelist = [] → check_word_lists config text = none) := by
  refine ⟨?_, ?_, ?_⟩
  · intro config text b hmem hne hsub
    have hex : ∃ x, x ∈ config.blacklist ∧
        (!x.isEmpty && isSubstr x (pyLower text)) = true := by
      refine ⟨b, hmem, ?_⟩
      simp [hsub, List.isEmpty_iff, hne]
    have hsome : (config.blacklist.find? fun blocked =>
        !blocked.isEmpty && isSubstr blocked (pyLower text)).isSome := by
      rw [List.find?_isSome]; exact hex
    cases hfind : config.blacklist.find? fun blocked =>
        !blocked.isEmpty && isSubstr blocked (pyLower text) with
    | none => rw [hfind] at hsome; simp at hsome
    | some b' =>
      have hp := List.find?_some hfind
      have hm := List.mem_of_find?_eq_some hfind
      simp only [Bool.and_eq_true, Bool.not_eq_true'] at hp
      refine ⟨b', hm, ?_, hp.2, ?_⟩
      · intro hb
        rw [hb] at hp
        simp at hp
      · simp [check_word_lists, hfind]
  · intro config text hbl hwl hwl2
    have hfind : (config.blacklist.find? fun blocked =>
        !blocked.isEmpty && isSubstr blocked (pyLower text)) = none := by
      rw [List.find?_eq_none]
      intro b hb
      rcases hbl b hb with h | h
      · simp [h]
      · simp [h]
    have hempty : config.whitelist.isEmpty = false := by
      cases hw : config.whitelist.isEmpty
      · rfl
      · exact absurd (List.isEmpty_iff.mp hw) hwl
    have hany : (config.whitelist.any fun word => isSubstr word (pyLower text)) = false := by
      rw [List.any_eq_false]
      intro w hw
      simp [hwl2 w hw]
    simp [check_word_lists, hfind, hempty, hany]
  · intro config text hb hw
    simp [check_word_lists, hb, hw]

/-- A configuration with a `spam` blacklist entry and a whitelist. -/
def cfgSpam : GuildConfig :=
  { guild_id := 1, blacklist := [("spam").toList], whitelist := [("x").toList] }

/-- A configuration with only a whitelist. -/
def cfgTopic : GuildConfig := { guild_id := 1, whitelist := [("topic").toList] }

/-- A configuration with empty word lists. -/
def cfgPlain : GuildConfig := { guild_id := 1 }

/-- Witness for `C2` at concrete configurations and texts. -/
theorem check_word_lists_contract_witness :
    (∃ b', b' ∈ cfgSpam.blacklist ∧ b' ≠ [] ∧
        isSubstr b' (pyLower ("no Spam here").toList) = true ∧
        check_word_lists cfgSpam ("no Spam here").toList = some (blockedMsg b')) ∧
      check_word_lists cfgTopic ("free text").toList = some whitelistMsg ∧
      check_word_lists cfgPlain ("anything").toList = none :=
  ⟨check_word_lists_contract.1 cfgSpam _ ("spam").toList (by decide) (by decide)
     (by decide),
   check_word_lists_contract.2.1 cfgTopic _ (by intro b hb; simp [cfgTopic] at hb)
     (by decide) (by decide),
   check_word_lists_contract.2.2 cfgPlain _ rfl rfl⟩

/-- C10 helper: the blacklist scan ignores entries that are skipped by the
truthiness test. -/
theorem find?_blacklist_filter (lowered : Str) (l : List Str) :
    (l.find? fun blocked => !blocked.isEmpty && isSubstr blocked lowered) =
      ((l.filter fun b => !b.isEmpty).find? fun blocked =>
        !blocked.isEmpty && isSubstr blocked lowered) := by
  induction l with
  | nil => rfl
  | cons b t ih =>
    cases hb : b.isEmpty with
    | true =>
      have hskip : (!b.isEmpty && isSubstr b lowered) = false := by simp [hb]
      rw [List.find?_cons_of_neg _ (by simp [hskip]), List.filter_cons, ih]
      simp [hb]
    | false =>
      rw [List.filter_cons]
      simp only [hb, Bool.not_false, if_pos]
      cases hsub : isSubstr b lowered with
      | true =>
        rw [List.find?_cons_of_pos _ (by simp [hb, hsub]),
          List.find?_cons_of_pos _ (by simp [hb, hsub])]
      | false =>
        rw [List.find?_cons_of_neg _ (by simp [hsub]),
          List.find?_cons_of_neg _ (by simp [hsub]), ih]

/-- `C10`: an empty string in the blacklist never causes a rejection — the
check skips falsy entries, so dropping all empty-string entries from the
blacklist never changes the filter's verdict on any text. -/
theorem check_word_lists_skips_empty_entries (config : GuildConfig) (text : Str) :
    check_word_lists config text =
      check_word_lists
        { config with blacklist := config.blacklist.filter fun b => !b.isEmpty }
        text := by
  simp only [check_word_lists]
  rw [← find?_blacklist_filter]

/-! ## C3: rate limiter -/

theorem dictGetD_insert_self [DecidableEq α] (l : List (α × β)) (k : α) (v d : β) :
    dictGetD (dictInsert l k v) k d = v := by
  simp [dictGetD, dictGet?_insert_self]

/-- `C3`: with `cooldown_seconds = C > 0` an accepted attempt at `t₀` books
`t₀ + C`; a second attempt before `t₀ + C` is rejected and leaves the
stored timestamp untouched (no extension-on-retry); an attempt at or after
`t₀ + C` is accepted and advances the timestamp to `now + C`; with
`cooldown_seconds = 0` every attempt is accepted and no cooldown state is
stored. -/
theorem rate_limiter_contract (config : GuildConfig) (m : CooldownMap)
    (g u : Nat) (t₀ t : ℚ) :
    (config.cooldown_seconds > 0 →
      dictGetD m (g, u) 0 ≤ t₀ →
      beichtenGate config m g u t₀ =
        (true, dictInsert m (g, u) (t₀ + (config.cooldown_seconds : ℚ))) ∧
      (t < t₀ + (config.cooldown_seconds : ℚ) →
        beichtenGate config
          (dictInsert m (g, u) (t₀ + (config.cooldown_seconds : ℚ))) g u t =
          (false, dictInsert m (g, u) (t₀ + (config.cooldown_seconds : ℚ)))) ∧
      (t₀ + (config.cooldown_seconds : ℚ) ≤ t →
        beichtenGate config
          (dictInsert m (g, u) (t₀ + (config.cooldown_seconds : ℚ))) g u t =
          (true, dictInsert (dictInsert m (g, u) (t₀ + (config.cooldown_seconds : ℚ)))
            (g, u) (t + (config.cooldown_seconds : ℚ))))) ∧
    (config.cooldown_seconds = 0 → beichtenGate config m g u t = (true, m)) := by
  constructor
  · intro hC hle
    refine ⟨?_, ?_, ?_⟩
    · simp [beichtenGate, is_on_cooldown, hC, not_lt.mpr hle]
    · intro ht
      simp [beichtenGate, is_on_cooldown, hC, dictGetD_insert_self, ht]
    · intro ht
      simp [beichtenGate, is_on_cooldown, hC, dictGetD_insert_self, not_lt.mpr ht]
  · intro h0
    simp [beichtenGate, h0]

/-- A configuration with a five-second cooldown. -/
def cfgCd5 : GuildConfig := { guild_id := 1, cooldown_seconds := 5 }

/-- A configuration with rate limiting disabled. -/
def cfgCd0 : GuildConfig := { guild_id := 1, cooldown_seconds := 0 }

/-- Witness for `C3` at concrete times. -/
theorem rate_limiter_contract_witness :
    beichtenGate cfgCd5 [] 1 2 0 =
      (true, dictInsert [] (1, 2) ((0 : ℚ) + (cfgCd5.cooldown_seconds : ℚ))) ∧
      beichtenGate cfgCd5
        (dictInsert [] (1, 2) ((0 : ℚ) + (cfgCd5.cooldown_seconds : ℚ))) 1 2 3 =
        (false, dictInsert [] (1, 2) ((0 : ℚ) + (cfgCd5.cooldown_seconds : ℚ))) ∧
      beichtenGate cfgCd5
        (dictInsert [] (1, 2) ((0 : ℚ) + (cfgCd5.cooldown_seconds : ℚ))) 1 2 7 =
        (true, dictInsert (dictInsert [] (1, 2) ((0 : ℚ) + (cfgCd5.cooldown_seconds : ℚ)))
          (1, 2) ((7 : ℚ) + (cfgCd5.cooldown_seconds : ℚ))) ∧
      beichtenGate cfgCd0 [] 1 2 0 = (true, []) :=
  ⟨((rate_limiter_contract cfgCd5 [] 1 2 0 3).1 (by decide) (by decide)).1,
   ((rate_limiter_contract cfgCd5 [] 1 2 0 3).1 (by decide) (by decide)).2.1
     (by norm_num [cfgCd5]),
   ((rate_limiter_contract cfgCd5 [] 1 2 0 7).1 (by decide) (by decide)).2.2
     (by norm_num [cfgCd5]),
   (rate_limiter_contract cfgCd0 [] 1 2 0 0).2 rfl⟩

/-! ## C8: mention neutralisation and its place in the pipeline -/

/-- Scanner: every `@` in the text is immediately followed by a zero width
space (a trailing `@` fails the scan). -/
def everyAtNeutralized : Str → Bool
  | [] => true
  | c :: rest =>
    (if c = '@' then
      (match rest with
        | d :: _ => d = zwsp
        | [] => false)
    else true) && everyAtNeutralized rest

theorem neutralize_everyAt (s : Str) :
    everyAtNeutralized (neutralize_mentions s) = true := by
  induction s with
  | nil => rfl
  | cons c t ih =>
    by_cases h : c = '@'
    · subst h
      simp +decide [neutralize_mentions, everyAtNeutralized, ih]
    · simp [neutralize_mentions, h, everyAtNeutralized, ih]

theorem neutralize_no_mention (s : Str) :
    mentionSearch (neutralize_mentions s) = false := by
  induction s with
  | nil => rfl
  | cons c t ih =>
    by_cases h : c = '@'
    · subst h
      simp +decide [neutralize_mentions, mentionSearch, startsW, ih]
    · simp [neutralize_mentions, h, mentionSearch, ih]

/-- `C8`: the word-list filter is evaluated on the raw author-submitted
text; when a submission is published, its confession body is the spoiler
wrapper applied to the neutralised text (neutralisation happens before
wrapping, on the text that is delivered); and neutralisation rewrites
every `@` (each is followed by a zero width space) so the platform's
mention pattern can no longer fire on the published body. -/
theorem mention_neutralization_placement (s : ConfigStore) (secret : Str)
    (guild : GuildEnv) (user_id : Nat)
    (confessionField triggerField arf ltf tcf : Str) (deliver : Option Nat) :
    (∀ msg, (handle_confession_submission s secret guild user_id confessionField
        triggerField arf ltf tcf deliver).1 = .rejectedWords msg →
      check_word_lists (get_guild_config s guild.id).1 confessionField = some msg) ∧
    (∀ content message_id mention url pii crisis,
      (handle_confession_submission s secret guild user_id confessionField
        triggerField arf ltf tcf deliver).1 =
        .published content message_id mention url pii crisis →
      check_word_lists (get_guild_config s guild.id).1 confessionField = none ∧
      content = List.intercalate ("\n\n").toList
        ((if parseTriggers triggerField ≠ [] then
          [("**TW:** ").toList ++
            List.intercalate (", ").toList (parseTriggers triggerField)]
        else []) ++ [spoiler_content (neutralize_mentions confessionField)]) ∧
      mention = mentionSearch (neutralize_mentions confessionField)) ∧
    (everyAtNeutralized (neutralize_mentions confessionField) = true ∧
      mentionSearch (neutralize_mentions confessionField) = false) := by
  refine ⟨?_, ?_, neutralize_everyAt _, neutralize_no_mention _⟩
  · intro msg h
    simp only [handle_confession_submission] at h
    split at h
    · simp only [Outcome.rejectedWords.injEq] at h
      subst h
      assumption
    · split at h
      · simp at h
      · split at h
        · simp at h
        · split at h <;> simp at h
  · intro content message_id mention url pii crisis h
    simp only [handle_confession_submission] at h
    split at h
    · simp at h
    · refine ⟨by assumption, ?_⟩
      split at h
      · simp at h
      · split at h
        · simp at h
        · split at h
          · simp at h
          · simp only [Outcome.published.injEq] at h
            exact ⟨h.1.symm, h.2.2.1.symm⟩

/-! ## C1: end-to-end scenario A -/

/-- Scenario A guild configuration: no cooldown, empty word lists, a valid
target channel. -/
def cfgA : GuildConfig :=
  { guild_id := 1, target_channel_id := some 10, cooldown_seconds := 0 }

/-- Scenario A store: the guild entry as persisted by `set_guild_config`. -/
def storeA (secret : Str) : ConfigStore :=
  { guilds := [(1, cfgA.to_dict)], hash_secret := some secret }

/-- Scenario A guild view: channel `10` exists and is a text channel. -/
def guildA : GuildEnv := { id := 1, textChannels := [10] }

/-- The scenario A submission text. -/
def textA : Str := ("hello @everyone test@example.com").toList

/-- Scenario A submission by author `42`, all optional modal fields empty,
delivery succeeding with message id `99`. -/
def runA (secret : Str) : Outcome × ConfigStore :=
  handle_confession_submission (storeA secret) secret guildA 42 textA [] [] [] []
    (some 99)

/-- The content scenario A delivers: the neutralised text (zero width
space after each `@`), spoiler-wrapped. -/
def contentA : Str := ("||hello @​everyone test@​example.com||").toList

/-- `C1` counterexample: the raw scenario A text does match the PII (email)
pattern, yet the pipeline checks PII on the neutralised text, where the
inserted zero width space breaks the email pattern — the submission is
published with the PII advisory flag clear and `pii_flags` stays empty,
contradicting the claim that the flag is set and `pii_flags` contains the
message id. -/
theorem scenario_a_pii_counterexample :
    check_pii textA = true ∧
      (runA ("s").toList).1 = .published contentA 99 false false false false ∧
      ((get_guild_config (runA ("s").toList).2 1).1).pii_flags = [] :=
  ⟨by decide, rfl, rfl⟩

/-- `C1` (amended): in scenario A the submission is accepted (the cooldown
gate admits it and stores nothing), the delivered content has every
mention trigger neutralised, and `stats.confessions` is `1` afterwards —
but the PII pattern is not detected: detection runs on the neutralised
text where the email pattern no longer matches, so the advisory flag is
clear and `pii_flags` does not receive the message id. -/
theorem scenario_a_amended (secret : Str) (now : ℚ) :
    beichtenGate cfgA [] 1 42 now = (true, []) ∧
      (runA secret).1 = .published contentA 99 false false false false ∧
      everyAtNeutralized (neutralize_mentions textA) = true ∧
      check_pii (neutralize_mentions textA) = false ∧
      dictGetD ((get_guild_config (runA secret).2 1).1).stats
        ("confessions").toList 0 = 1 ∧
      ((get_guild_config (runA secret).2 1).1).pii_flags = [] :=
  ⟨rfl, rfl, neutralize_everyAt textA, by decide, rfl, rfl⟩

/-- Witness for `C8` at the concrete scenario A submission. -/
theorem mention_neutralization_placement_witness :
    check_word_lists (get_guild_config (storeA ("s").toList) guildA.id).1 textA =
      none ∧
      contentA = List.intercalate ("\n\n").toList
        ((if parseTriggers [] ≠ [] then
          [("**TW:** ").toList ++ List.intercalate (", ").toList (parseTriggers [])]
        else []) ++ [spoiler_content (neutralize_mentions textA)]) ∧
      false = mentionSearch (neutralize_mentions textA) :=
  (mention_neutralization_placement (storeA ("s").toList) (("s").toList) guildA 42
    textA [] [] [] [] (some 99)).2.1 contentA 99 false false false false rfl

/-! ## C7: hashed-posts entries across store operations -/

/-- The public store mutators, as data. -/
inductive StoreOp where
  | opGetConfig (guild_id : Nat)
  | opRecordHash (guild_id message_id : Nat) (hash_id : Str)
  | opIncrementStat (guild_id : Nat) (key : Str) (amount : Int)
  | opSetBanner (guild_id : Nat) (text : Option Str)
  | opSetLists (guild_id : Nat) (blacklist whitelist : Option (List Str))
  | opUpdateAllowedChannels (guild_id : Nat) (channels : List Nat)
  | opRecordFlag (guild_id message_id : Nat) (crisis pii : Bool)
  | opResetGuild (guild_id : Nat)
deriving DecidableEq

/-- Apply one store operation. -/
def applyOp (s : ConfigStore) : StoreOp → ConfigStore
  | .opGetConfig g => (get_guild_config s g).2
  | .opRecordHash g m h => record_hash s g m h
  | .opIncrementStat g k a => increment_stat s g k a
  | .opSetBanner g t => set_banner s g t
  | .opSetLists g bl wl => (set_lists s g bl wl).2
  | .opUpdateAllowedChannels g cs => (update_allowed_channels s g cs).2
  | .opRecordFlag g m c p => record_flag s g m c p
  | .opResetGuild g => reset_guild s g

/-- The trace token stored for `(guild, message)`. -/
def storedHash (s : ConfigStore) (g m : Nat) : Option Str :=
  (dictGet? s.guilds g).bind fun cfg => dictGet? cfg.hashed_posts m

/-- Operations that may touch the `(g, m)` entry: a `record_hash` for the
same guild and message id (which replaces the token), and a guild reset
(which deletes the whole entry). -/
def overwritesHash : StoreOp → Nat → Nat → Bool
  | .opRecordHash g' m' _, g, m => g' = g && m' = m
  | .opResetGuild g', g, _ => g' = g
  | _, _, _ => false

/-- Stored configs carry the key they are filed under (every state the
store itself produces satisfies this). -/
def WellKeyed (s : ConfigStore) : Prop := ∀ p ∈ s.guilds, (p.2).guild_id = p.1

theorem dictGet?_mem [DecidableEq α] (l : List (α × β)) (k : α) (v : β)
    (h : dictGet? l k = some v) : (k, v) ∈ l := by
  induction l with
  | nil => simp [dictGet?] at h
  | cons p t ih =>
    rcases p with ⟨k1, v1⟩
    by_cases h1 : k1 = k
    · subst h1
      simp [dictGet?] at h
      simp [h]
    · simp [dictGet?, h1] at h
      simp [ih h]

theorem mem_dictInsert [DecidableEq α] (l : List (α × β)) (k : α) (v : β) (p : α × β)
    (h : p ∈ dictInsert l k v) : p = (k, v) ∨ p ∈ l := by
  induction l with
  | nil => simpa [dictInsert] using h
  | cons q t ih =>
    rcases q with ⟨k1, v1⟩
    by_cases h1 : k1 = k
    · subst h1
      simp [dictInsert] at h
      rcases h with h | h
      · exact .inl (by simp [h])
      · exact .inr (by simp [h])
    · simp [dictInsert, h1] at h
      rcases h with h | h
      · exact .inr (by simp [h])
      · rcases ih h with h2 | h2
        · exact .inl h2
        · exact .inr (by simp [h2])

theorem to_dict_guild_id (c : GuildConfig) : (GuildConfig.to_dict c).guild_id = c.guild_id := rfl

theorem to_dict_hashed (c : GuildConfig) :
    (GuildConfig.to_dict c).hashed_posts = c.hashed_posts := rfl

theorem from_dict_hashed (c : GuildConfig) :
    (GuildConfig.from_dict c).hashed_posts = c.hashed_posts := rfl

theorem wellKeyed_set (s : ConfigStore) (cfg : GuildConfig) (hwk : WellKeyed s) :
    WellKeyed (set_guild_config s cfg) := by
  intro p hp
  rcases mem_dictInsert _ _ _ _ hp with h | h
  · rw [h]; exact to_dict_guild_id cfg
  · exact hwk p h

theorem storedHash_set (s : ConfigStore) (cfg : GuildConfig) (g m : Nat) :
    storedHash (set_guild_config s cfg) g m =
      if cfg.guild_id = g then dictGet? cfg.hashed_posts m else storedHash s g m := by
  by_cases h : cfg.guild_id = g
  · rw [if_pos h]
    unfold storedHash set_guild_config
    rw [← h, dictGet?_insert_self]
    simp [to_dict_hashed]
  · rw [if_neg h]
    unfold storedHash set_guild_config
    rw [dictGet?_insert_ne _ _ _ _ (fun hh => h hh.symm)]

theorem get_hashed_of_storedHash (s : ConfigStore) (g m : Nat) (tok : Str)
    (hsh : storedHash s g m = some tok) :
    dictGet? ((get_guild_config s g).1).hashed_posts m = some tok := by
  unfold storedHash at hsh
  cases hraw : dictGet? s.guilds g with
  | none => rw [hraw] at hsh; simp at hsh
  | some raw =>
    rw [hraw] at hsh
    simp only [Option.some_bind] at hsh
    simp [get_guild_config, hraw, from_dict_hashed]
    exact hsh

theorem get_guild_id (s : ConfigStore) (g : Nat) (hwk : WellKeyed s) :
    ((get_guild_config s g).1).guild_id = g := by
  cases hraw : dictGet? s.guilds g with
  | none => simp [get_guild_config, hraw]
  | some raw =>
    have := hwk (g, raw) (dictGet?_mem _ _ _ hraw)
    simp [get_guild_config, hraw, GuildConfig.from_dict]
    exact this

theorem wellKeyed_get_set (s : ConfigStore) (g' : Nat) (cfg2 : GuildConfig)
    (hwk : WellKeyed s) :
    WellKeyed (set_guild_config (get_guild_config s g').2 cfg2) := by
  cases hraw : dictGet? s.guilds g' with
  | none =>
    simp only [get_guild_config, hraw]
    exact wellKeyed_set _ _ (wellKeyed_set _ _ hwk)
  | some raw =>
    simp only [get_guild_config, hraw]
    exact wellKeyed_set _ _ hwk

/-- Core preservation step: a fetch-modify-store round trip keeps the
`(g, m)` token provided the written config still holds it when the target
guild is the observed one. -/
theorem storedHash_get_set (s : ConfigStore) (g' g m : Nat) (tok : Str)
    (cfg2 : GuildConfig)
    (hid : cfg2.guild_id = ((get_guild_config s g').1).guild_id)
    (hwk : WellKeyed s)
    (hsh : storedHash s g m = some tok)
    (hhp : g' = g → dictGet? cfg2.hashed_posts m = some tok) :
    storedHash (set_guild_config (get_guild_config s g').2 cfg2) g m = some tok := by
  have hid2 : cfg2.guild_id = g' := by rw [hid]; exact get_guild_id s g' hwk
  by_cases hg : g' = g
  · subst hg
    rw [storedHash_set, if_pos hid2]
    exact hhp rfl
  · cases hraw : dictGet? s.guilds g' with
    | none =>
      simp only [get_guild_config, hraw]
      rw [storedHash_set, if_neg (by rw [hid2]; exact hg)]
      rw [storedHash_set]
      simp only [if_neg hg]
      exact hsh
    | some raw =>
      simp only [get_guild_config, hraw]
      rw [storedHash_set, if_neg (by rw [hid2]; exact hg)]
      exact hsh

theorem wellKeyed_applyOp (s : ConfigStore) (op : StoreOp) (hwk : WellKeyed s) :
    WellKeyed (applyOp s op) := by
  cases op with
  | opGetConfig g =>
    cases hraw : dictGet? s.guilds g with
    | none =>
      simp only [applyOp, get_guild_config, hraw]
      exact wellKeyed_set _ _ hwk
    | some raw => simpa only [applyOp, get_guild_config, hraw] using hwk
  | opRecordHash g m h => exact wellKeyed_get_set _ _ _ hwk
  | opIncrementStat g k a => exact wellKeyed_get_set _ _ _ hwk
  | opSetBanner g t => exact wellKeyed_get_set _ _ _ hwk
  | opSetLists g bl wl => exact wellKeyed_get_set _ _ _ hwk
  | opUpdateAllowedChannels g cs => exact wellKeyed_get_set _ _ _ hwk
  | opRecordFlag g m c p => exact wellKeyed_get_set _ _ _ hwk
  | opResetGuild g =>
    intro p hp
    simp only [applyOp, reset_guild] at hp
    by_cases h : (dictGet? s.guilds g).isSome
    · rw [if_pos h] at hp
      simp only at hp
      exact hwk p (List.mem_of_mem_filter hp)
    · rw [if_neg h] at hp
      exact hwk p hp

theorem guild_id_recordFlagFn (m : Nat) (c p : Bool) (cfg : GuildConfig) :
    (recordFlagFn m c p cfg).guild_id = cfg.guild_id := by
  cases c <;> cases p <;> rfl

theorem hashed_recordFlagFn (m : Nat) (c p : Bool) (cfg : GuildConfig) :
    (recordFlagFn m c p cfg).hashed_posts = cfg.hashed_posts := by
  cases c <;> cases p <;> rfl

theorem guild_id_setListsFn (bl wl : Option (List Str)) (cfg : GuildConfig) :
    (setListsFn bl wl cfg).guild_id = cfg.guild_id := by
  cases bl <;> cases wl <;> rfl

theorem hashed_setListsFn (bl wl : Option (List Str)) (cfg : GuildConfig) :
    (setListsFn bl wl cfg).hashed_posts = cfg.hashed_posts := by
  cases bl <;> cases wl <;> rfl

/-- Single-operation preservation for the `C7` amendment. -/
theorem storedHash_applyOp (s : ConfigStore) (op : StoreOp) (g m : Nat) (tok : Str)
    (hwk : WellKeyed s) (hsh : storedHash s g m = some tok)
    (hex : overwritesHash op g m = false) :
    storedHash (applyOp s op) g m = some tok := by
  cases op with
  | opGetConfig g' =>
    cases hraw : dictGet? s.guilds g' with
    | some raw => simpa only [applyOp, get_guild_config, hraw] using hsh
    | none =>
      by_cases hg : g' = g
      · subst hg
        unfold storedHash at hsh
        rw [hraw] at hsh
        simp at hsh
      · simp only [applyOp, get_guild_config, hraw]
        rw [storedHash_set]
        simp only [if_neg hg]
        exact hsh
  | opRecordHash g' m' h =>
    refine storedHash_get_set s g' g m tok _ rfl hwk hsh ?_
    intro hg
    subst hg
    have hm : ¬m' = m := by
      simp only [overwritesHash] at hex
      simpa using hex
    show dictGet? (dictInsert ((get_guild_config s g').1).hashed_posts m' h) m = some tok
    rw [dictGet?_insert_ne _ _ _ _ (fun hh => hm hh.symm)]
    exact get_hashed_of_storedHash s g' m tok hsh
  | opIncrementStat g' k a =>
    refine storedHash_get_set s g' g m tok _ rfl hwk hsh ?_
    intro hg
    subst hg
    exact get_hashed_of_storedHash s g' m tok hsh
  | opSetBanner g' t =>
    refine storedHash_get_set s g' g m tok _ rfl hwk hsh ?_
    intro hg
    subst hg
    exact get_hashed_of_storedHash s g' m tok hsh
  | opSetLists g' bl wl =>
    refine storedHash_get_set s g' g m tok _ (guild_id_setListsFn bl wl _) hwk hsh ?_
    intro hg
    subst hg
    rw [hashed_setListsFn]
    exact get_hashed_of_storedHash s g' m tok hsh
  | opUpdateAllowedChannels g' cs =>
    refine storedHash_get_set s g' g m tok _ rfl hwk hsh ?_
    intro hg
    subst hg
    exact get_hashed_of_storedHash s g' m tok hsh
  | opRecordFlag g' m' c p =>
    refine storedHash_get_set s g' g m tok _ (guild_id_recordFlagFn m' c p _) hwk hsh ?_
    intro hg
    subst hg
    rw [hashed_recordFlagFn]
    exact get_hashed_of_storedHash s g' m tok hsh
  | opResetGuild g' =>
    have hg : ¬g' = g := by simpa [overwritesHash] using hex
    simp only [applyOp, reset_guild]
    by_cases h : (dictGet? s.guilds g').isSome
    · rw [if_pos h]
      unfold storedHash
      rw [show ({ s with guilds := dictRemove s.guilds g' } : ConfigStore).guilds =
        dictRemove s.guilds g' from rfl]
      rw [dictGet?_remove_ne _ _ _ (fun hh => hg hh.symm)]
      exact hsh
    · rw [if_neg h]
      exact hsh

/-- `C7` counterexample: calling `record_hash` twice for the same message
id overwrites the stored token, so an entry is not immutable under every
subsequent store operation. -/
theorem record_hash_overwrite_counterexample :
    storedHash (record_hash ({} : ConfigStore) 1 5 (("a").toList)) 1 5 =
      some (("a").toList) ∧
      storedHash (record_hash (record_hash ({} : ConfigStore) 1 5 (("a").toList))
        1 5 (("b").toList)) 1 5 = some (("b").toList) ∧
      some (("b").toList) ≠ some (("a").toList) :=
  ⟨rfl, rfl, by decide⟩

/-- `C7` (amended): once a `hashed_posts` entry is written, every sequence
of store operations that contains no `record_hash` for that same guild and
message id and no reset of that guild preserves the entry and its token
(`record_hash` with the same message id replaces the token, and
`reset_guild` deletes the guild's entry wholesale). -/
theorem hashed_posts_append_only (s : ConfigStore) (ops : List StoreOp)
    (g m : Nat) (tok : Str) (hwk : WellKeyed s)
    (hsh : storedHash s g m = some tok)
    (hex : ∀ op ∈ ops, overwritesHash op g m = false) :
    storedHash (ops.foldl applyOp s) g m = some tok := by
  induction ops generalizing s with
  | nil => simpa using hsh
  | cons op rest ih =>
    simp only [List.foldl_cons]
    exact ih (applyOp s op) (wellKeyed_applyOp s op hwk)
      (storedHash_applyOp s op g m tok hwk hsh (hex op (by simp)))
      (fun o ho => hex o (by simp [ho]))

/-- Witness for `C7` on a concrete store and operation sequence. -/
theorem hashed_posts_append_only_witness :
    storedHash (([StoreOp.opIncrementStat 1 (("confessions").toList) 1,
        StoreOp.opRecordHash 1 6 (("c").toList),
        StoreOp.opRecordFlag 1 6 true true,
        StoreOp.opSetBanner 1 (some (("x").toList)),
        StoreOp.opResetGuild 2,
        StoreOp.opGetConfig 3] : List StoreOp).foldl applyOp
      (record_hash ({} : ConfigStore) 1 5 (("a").toList))) 1 5 =
      some (("a").toList) :=
  hashed_posts_append_only _ _ 1 5 (("a").toList) (by unfold WellKeyed; decide) rfl
    (by decide)

/-! ## C5: the pseudonymizer -/

theorem digitChar_ne_colon (k : Nat) : digitChar k ≠ ':' := by
  unfold digitChar
  split <;> decide

theorem natDecAux_no_colon (fuel : Nat) : ∀ n, ':' ∉ natDecAux fuel n := by
  induction fuel with
  | zero => intro n; simp [natDecAux]
  | succ fuel ih =>
    intro n
    by_cases h : n < 10
    · simp only [natDecAux, if_pos h]
      intro hmem
      rw [List.mem_singleton] at hmem
      exact digitChar_ne_colon n hmem.symm
    · simp only [natDecAux, if_neg h]
      intro hmem
      rcases List.mem_append.mp hmem with hm | hm
      · exact ih _ hm
      · rw [List.mem_singleton] at hm
        exact digitChar_ne_colon _ hm.symm

theorem natDec_no_colon (n : Nat) : ':' ∉ natDec n := natDecAux_no_colon _ _

theorem decValue_append_digit (l : Str) (c : Char) :
    decValue (l ++ [c]) = 10 * decValue l + (c.toNat - 48) := by
  unfold decValue
  rw [List.foldl_append]
  rfl

theorem decValue_digitChar (n : Nat) (h : n < 10) : (digitChar n).toNat - 48 = n := by
  interval_cases n <;> decide

theorem decValue_natDecAux (fuel : Nat) : ∀ n, n < fuel → decValue (natDecAux fuel n) = n := by
  induction fuel with
  | zero => intro n h; omega
  | succ fuel ih =>
    intro n h
    by_cases h10 : n < 10
    · simp only [natDecAux, if_pos h10]
      show 10 * 0 + ((digitChar n).toNat - 48) = n
      rw [decValue_digitChar n h10]
      omega
    · have h2 : n / 10 < fuel := by
        have h3 : n / 10 < n := Nat.div_lt_self (by omega) (by omega)
        omega
      simp only [natDecAux, if_neg h10]
      rw [decValue_append_digit, ih _ h2, decValue_digitChar _ (Nat.mod_lt _ (by omega))]
      omega

theorem natDec_inj (a b : Nat) (h : natDec a = natDec b) : a = b := by
  have ha := decValue_natDecAux (a + 1) a (by omega)
  have hb := decValue_natDecAux (b + 1) b (by omega)
  unfold natDec at h
  rw [h] at ha
  rw [hb] at ha
  exact ha.symm

theorem append_colon_inj (a : Str) : ∀ b c d : Str, ':' ∉ a → ':' ∉ c →
    a ++ ':' :: b = c ++ ':' :: d → a = c ∧ b = d := by
  induction a with
  | nil =>
    intro b c d _ hc h
    cases c with
    | nil => simpa using h
    | cons y c' =>
      rw [List.nil_append, List.cons_append] at h
      obtain ⟨h1, _⟩ := List.cons.inj h
      exact absurd (by rw [← h1]; exact List.mem_cons_self _ _) hc
  | cons x a' ih =>
    intro b c d ha hc h
    cases c with
    | nil =>
      rw [List.cons_append, List.nil_append] at h
      obtain ⟨h1, _⟩ := List.cons.inj h
      exact absurd (by rw [h1]; exact List.mem_cons_self _ _) ha
    | cons y c' =>
      rw [List.cons_append, List.cons_append] at h
      obtain ⟨h1, h2⟩ := List.cons.inj h
      have ha' : ':' ∉ a' := fun hm => ha (List.mem_cons_of_mem _ hm)
      have hc' : ':' ∉ c' := fun hm => hc (List.mem_cons_of_mem _ hm)
      obtain ⟨e1, e2⟩ := ih b c' d ha' hc' h2
      exact ⟨by rw [h1, e1], e2⟩

/-- The byte-level HMAC input determines both ids: the decimal encodings
around the `:` separator are recoverable. -/
theorem hmacMessage_inj (u m u' m' : Nat)
    (h : hmacMessage u m = hmacMessage u' m') : u = u' ∧ m = m' := by
  unfold hmacMessage at h
  obtain ⟨h1, h2⟩ := append_colon_inj (natDec u) (natDec m) (natDec u') (natDec m')
    (natDec_no_colon u) (natDec_no_colon u') h
  exact ⟨natDec_inj _ _ h1, natDec_inj _ _ h2⟩

set_option maxRecDepth 1000000 in
/-- `C5`: the pseudonymizer is a pure function of exactly the secret and
the two ids — identical invocations return the identical token; the HMAC
input encodes the (author, message) pair injectively; and at concrete
inputs, changing the message id, the author id, or the secret each changes
the output token. -/
theorem trace_token_deterministic :
    (∀ (secret : Str) (u m : Nat), create_hash secret u m = create_hash secret u m) ∧
      (∀ u m u' m' : Nat, hmacMessage u m = hmacMessage u' m' → u = u' ∧ m = m') ∧
      create_hash (("a").toList) 1 2 ≠ create_hash (("a").toList) 1 3 ∧
      create_hash (("a").toList) 1 2 ≠ create_hash (("a").toList) 2 2 ∧
      create_hash (("a").toList) 1 2 ≠ create_hash (("b").toList) 1 2 :=
  ⟨fun _ _ _ => rfl, fun u m u' m' h => hmacMessage_inj u m u' m' h,
   by decide, by decide, by decide⟩

/-- Witness for `C5` at concrete ids. -/
theorem trace_token_deterministic_witness :
    hmacMessage 12 34 = hmacMessage 12 34 ∧ (12 = 12 ∧ 34 = 34) :=
  ⟨rfl, trace_token_deterministic.2.1 12 34 12 34 rfl⟩

end BeichtBot
